import Mathlib

/-!
Verification of the task-runner lifecycle hook engine
(`client/allocrunnerv2/taskrunner/task_runner_hooks.go`).

The engine composes an ordered list of lifecycle hooks for one task and
drives them through five phases: `prestart`, `poststart`, `stop`,
`updateHooks` and `kill`.  The shallow embedding below translates the Go
source into pure Lean functions: the task runner mutable fields
(`tr.localState.Hooks`, the environment builder) become an explicit
`RunnerState` threaded through the phase runners, and each runner
additionally returns a log of the hook invocations it performed, the
persistence calls it issued and (for the best-effort phases) the errors it
logged, so that the phase policies can be stated as theorems.

Collaborators that live outside the translated file (the `state` package
`HookState`, `structs.WrapRecoverable`, the environment builder, the hook
constructors, `persistLocalState`, `alloc.TerminalStatus`, `getVaultToken`)
are modelled from the specification; each such definition carries a
`Modelled from the spec:` doc comment.
-/

set_option autoImplicit false

namespace Nomad

/-- A Go `context.Context` as far as this file uses one: either the task
runner own context `tr.ctx` (which may already be canceled) or the
independent `context.Background()` that the kill phase uses. -/
inductive Ctx where
  | runner (canceled : Bool)
  | background
deriving DecidableEq

/-- A Go `error` value, distinguishing plain errors (`fmt.Errorf`) from the
`structs.RecoverableError` wrapper that carries a message and the wrapped
cause. -/
inductive GoError where
  | plain (msg : String)
  | recoverable (msg : String) (cause : GoError)
deriving DecidableEq

/-- The `Error()` string of a Go error (`%v` rendering). -/
def GoError.message : GoError → String
  | .plain m => m
  | .recoverable m _ => m

/-- Modelled from the spec: the error taxonomy of §7 distinguishes
recoverable setup failures from plain fatal errors
(`structs.IsRecoverable`). -/
def GoError.IsRecoverable : GoError → Bool
  | .plain _ => false
  | .recoverable _ _ => true

/-- Modelled from the spec: §4.2 step 4 wraps a failing pre-start hook
error as a recoverable failure that carries the original error and a new
message (`structs.WrapRecoverable`). -/
def WrapRecoverable (msg : String) (err : GoError) : GoError :=
  GoError.recoverable msg err

/-- Lookup in an association list keyed by strings; this is the reading of
a Go `map[string]V` access `m[k]` (first matching entry). -/
def lookupAssoc {β : Type} : List (String × β) → String → Option β
  | [], _ => none
  | (k, v) :: rest, n => if k = n then some v else lookupAssoc rest n

/-- Insertion into an association list; the reading of a Go map store
`m[k] = v` (replaces the entry when the key is present). -/
def insertAssoc {β : Type} : List (String × β) → String → β → List (String × β)
  | [], n, v => [(n, v)]
  | (k, w) :: rest, n, v =>
    if k = n then (n, v) :: rest else (k, w) :: insertAssoc rest n v

/-- Modelled from the spec: the Environment Accumulator merge operation
(`envBuilder.SetGenericEnv`) appends hook-provided entries; the last writer
for a key wins. -/
def setGenericEnv (env entries : List (String × String)) :
    List (String × String) :=
  entries.foldl (fun acc kv => insertAssoc acc kv.1 kv.2) env

/-- Modelled from the spec: `envBuilder.Build()` returns a snapshot of the
environment accumulated so far. -/
def envBuild (env : List (String × String)) : List (String × String) := env

/-- Modelled from the spec: the task specification: an optional
secret-management (Vault) stanza, a template list and a shutdown delay
(`structs.Task`, read-only to the engine). -/
structure Task where
  Vault : Option Unit
  Templates : List Unit
  ShutdownDelay : Nat
deriving DecidableEq

/-- Modelled from the spec: the persisted per-hook state
(`state.HookState`): opaque data plus the pre-start `Done` flag.  The Go
`Data` field is a possibly-nil `map[string]string`. -/
structure HookState where
  Data : Option (List (String × String))
  PrestartDone : Bool
deriving DecidableEq

/-- The zero value `state.HookState{}`. -/
def emptyHookState : HookState := { Data := none, PrestartDone := false }

/-- Modelled from the spec: `HookState.Equal` on possibly-nil pointers:
two nil pointers are equal, nil differs from any allocated state, and two
allocated states are compared by their `Data` and `Done` fields. -/
def HookStateEqual : Option HookState → Option HookState → Bool
  | none, none => true
  | some a, some b => a.Data == b.Data && a.PrestartDone == b.PrestartDone
  | _, _ => false

/-- Go `origHookState != nil && origHookState.PrestartDone` from the source
skip check. -/
def prestartDoneOf : Option HookState → Bool
  | some hs => hs.PrestartDone
  | none => false

/-- Go `interfaces.TaskPrestartRequest`. -/
structure TaskPrestartRequest where
  Task : Task
  TaskDir : String
  TaskEnv : List (String × String)
  VaultToken : String
deriving DecidableEq

/-- Go `interfaces.TaskPrestartResponse`: optional environment entries,
possibly-nil `HookData` and the `Done` flag. -/
structure TaskPrestartResponse where
  Env : List (String × String)
  HookData : Option (List (String × String))
  Done : Bool
deriving DecidableEq

/-- Go `interfaces.TaskPoststartRequest` carries no fields. -/
abbrev TaskPoststartRequest := Unit
/-- Go `interfaces.TaskPoststartResponse` carries no fields the engine reads. -/
abbrev TaskPoststartResponse := Unit
/-- Go `interfaces.TaskStopRequest` carries no fields. -/
abbrev TaskStopRequest := Unit
/-- Go `interfaces.TaskStopResponse` carries no fields the engine reads. -/
abbrev TaskStopResponse := Unit
/-- Go `interfaces.TaskKillRequest` carries no fields. -/
abbrev TaskKillRequest := Unit
/-- Go `interfaces.TaskKillResponse` carries no fields the engine reads. -/
abbrev TaskKillResponse := Unit

/-- Go `interfaces.TaskUpdateRequest`: carries the freshly fetched secret
token. -/
structure TaskUpdateRequest where
  VaultToken : String
deriving DecidableEq

/-- A hook (`interfaces.TaskHook`): a stable name plus the subset of phase
capabilities it implements.  A present capability function is the reading
of a successful Go type assertion (`hook.(interfaces.TaskPrestartHook)`
and friends); its body is the external hook implementation, which
populates a response or returns an error. -/
structure TaskHook where
  name : String
  prestart : Option (Ctx → TaskPrestartRequest → Except GoError TaskPrestartResponse) := none
  poststart : Option (Ctx → TaskPoststartRequest → Except GoError TaskPoststartResponse) := none
  stop : Option (Ctx → TaskStopRequest → Except GoError TaskStopResponse) := none
  update : Option (Ctx → TaskUpdateRequest → Except GoError Unit) := none
  kill : Option (Ctx → TaskKillRequest → Except GoError TaskKillResponse) := none

/-- The task runner fields this file reads.  `vaultToken` models
`tr.getVaultToken()`, `terminal` models `tr.Alloc().TerminalStatus()`,
`ctxCanceled` records whether `tr.ctx` is already canceled, and
`persistErr` is the outcome the `tr.persistLocalState()` collaborator
returns (modelled from the spec as a durable save returning
success or failure). -/
structure TaskRunner where
  task : Task
  taskDir : String
  vaultToken : String
  terminal : Bool
  ctxCanceled : Bool
  persistErr : Option GoError
  runnerHooks : List TaskHook

/-- The context value `tr.ctx` that prestart, poststart, stop and update
pass to hooks. -/
def TaskRunner.runnerCtx (tr : TaskRunner) : Ctx := Ctx.runner tr.ctxCanceled

/-- The mutable state the phase runners can touch: the Local State Map
`tr.localState.Hooks` and the Environment Accumulator entries. -/
structure RunnerState where
  hooks : List (String × HookState)
  env : List (String × String)
deriving DecidableEq

/-- One recorded pre-start hook invocation: the hook name, the context
and the request it was invoked with. -/
structure PrestartCall where
  name : String
  ctx : Ctx
  req : TaskPrestartRequest
deriving DecidableEq

/-- The observable effects of one prestart pass: the hook invocations in
order and the snapshots handed to `tr.persistLocalState()`. -/
structure PrestartLog where
  invoked : List PrestartCall
  persists : List (List (String × HookState))
deriving DecidableEq

/-- The empty prestart log. -/
def PrestartLog.empty : PrestartLog := { invoked := [], persists := [] }

/-- Go `fmt.Sprintf("prestart hook %q failed: %v", name, err)`. -/
def prestartFailMsg (name : String) (err : GoError) : String :=
  "prestart hook \"" ++ name ++ "\" failed: " ++ err.message

/-- Outcome of one iteration of the prestart loop body: either continue
with the next hook or return from `prestart` with an error. -/
inductive StepRes where
  | next (st : RunnerState) (log : PrestartLog)
  | halt (st : RunnerState) (log : PrestartLog) (err : GoError)

/-- One iteration of the `prestart` loop body (source lines 75-146).
`tr.localState.Hooks` maps hook names to pointers: `origHookState` is the
pointer read under the read lock, and the re-read under the write lock
yields the same pointer, so when the entry already existed the in-place
field updates also update the object `origHookState` refers to.  `origNow`
is therefore what `origHookState` denotes at the time of the
`hookState.Equal(origHookState)` check: the freshly updated state when the
entry existed, nil when it did not. -/
def prestartStep (tr : TaskRunner) (hook : TaskHook) (st : RunnerState)
    (log : PrestartLog) : StepRes :=
  match hook.prestart with
  | none => StepRes.next st log
  | some pre =>
    let name := hook.name
    -- Build the request
    let req0 : TaskPrestartRequest :=
      { Task := tr.task, TaskDir := tr.taskDir, TaskEnv := envBuild st.env,
        VaultToken := "" }
    let origHookState := lookupAssoc st.hooks name
    if prestartDoneOf origHookState then
      -- skipping done prestart hook
      StepRes.next st log
    else
      let req : TaskPrestartRequest := { req0 with VaultToken := tr.vaultToken }
      let log1 : PrestartLog :=
        { log with invoked := log.invoked ++
            [{ name := name, ctx := tr.runnerCtx, req := req }] }
      -- Run the prestart hook
      match pre tr.runnerCtx req with
      | Except.error err =>
        StepRes.halt st log1 (WrapRecoverable (prestartFailMsg name err) err)
      | Except.ok resp =>
        -- Store the hook state
        let hookState0 : HookState :=
          match origHookState with
          | some hs => hs
          | none => emptyHookState
        let hookState : HookState :=
          if resp.HookData.isSome then
            { Data := resp.HookData, PrestartDone := resp.Done }
          else hookState0
        let hooks1 := insertAssoc st.hooks name hookState
        let st1 : RunnerState := { st with hooks := hooks1 }
        -- What origHookState points to after the in-place update above.
        let origNow : Option HookState := origHookState.map (fun _ => hookState)
        -- Store the environment variables returned by the hook (this runs
        -- after the persistence block below when that block succeeds).
        let st2 : RunnerState :=
          if resp.Env.isEmpty then st1
          else { st1 with env := setGenericEnv st1.env resp.Env }
        -- Store and persist local state if the hook state has changed
        if HookStateEqual (some hookState) origNow then
          StepRes.next st2 log1
        else
          let log2 : PrestartLog :=
            { log1 with persists := log1.persists ++ [hooks1] }
          match tr.persistErr with
          | some perr => StepRes.halt st1 log2 perr
          | none => StepRes.next st2 log2

/-- The `prestart` loop over the ordered hook list. -/
def prestartLoop (tr : TaskRunner) :
    List TaskHook → RunnerState → PrestartLog →
    RunnerState × PrestartLog × Option GoError
  | [], st, log => (st, log, none)
  | hook :: rest, st, log =>
    match prestartStep tr hook st log with
    | StepRes.next st1 log1 => prestartLoop tr rest st1 log1
    | StepRes.halt st1 log1 err => (st1, log1, some err)

/-- Go `(*TaskRunner).prestart`: skip everything when the allocation is
terminal, otherwise run the loop over `tr.runnerHooks`. -/
def TaskRunner.prestart (tr : TaskRunner) (st : RunnerState) :
    RunnerState × PrestartLog × Option GoError :=
  if tr.terminal then (st, PrestartLog.empty, none)
  else prestartLoop tr tr.runnerHooks st PrestartLog.empty

/-- Go `fmt.Errorf("poststart hook %q failed: %v", name, err)`. -/
def poststartFailMsg (name : String) (err : GoError) : String :=
  "poststart hook \"" ++ name ++ "\" failed: " ++ err.message

/-- The `poststart` loop: empty-bodied request, fail fast on the first
error with a plain error naming the hook. -/
def poststartLoop (tr : TaskRunner) :
    List TaskHook → List (String × Ctx) →
    List (String × Ctx) × Option GoError
  | [], calls => (calls, none)
  | hook :: rest, calls =>
    match hook.poststart with
    | none => poststartLoop tr rest calls
    | some post =>
      let name := hook.name
      let calls1 := calls ++ [(name, tr.runnerCtx)]
      match post tr.runnerCtx () with
      | Except.error err =>
        (calls1, some (GoError.plain (poststartFailMsg name err)))
      | Except.ok _ => poststartLoop tr rest calls1

/-- Go `(*TaskRunner).poststart`.  The source reads neither
`tr.localState` nor `tr.envBuilder` in this phase, so the runner state is
passed through unchanged. -/
def TaskRunner.poststart (tr : TaskRunner) (st : RunnerState) :
    RunnerState × List (String × Ctx) × Option GoError :=
  let r := poststartLoop tr tr.runnerHooks []
  (st, r.1, r.2)

/-- Go `fmt.Errorf("stop hook %q failed: %v", name, err)`. -/
def stopFailMsg (name : String) (err : GoError) : String :=
  "stop hook \"" ++ name ++ "\" failed: " ++ err.message

/-- The `stop` loop: same shape and fail-fast policy as poststart. -/
def stopLoop (tr : TaskRunner) :
    List TaskHook → List (String × Ctx) →
    List (String × Ctx) × Option GoError
  | [], calls => (calls, none)
  | hook :: rest, calls =>
    match hook.stop with
    | none => stopLoop tr rest calls
    | some stopFn =>
      let name := hook.name
      let calls1 := calls ++ [(name, tr.runnerCtx)]
      match stopFn tr.runnerCtx () with
      | Except.error err =>
        (calls1, some (GoError.plain (stopFailMsg name err)))
      | Except.ok _ => stopLoop tr rest calls1

/-- Go `(*TaskRunner).stop`.  The source reads neither `tr.localState` nor
`tr.envBuilder` in this phase, so the runner state is passed through
unchanged. -/
def TaskRunner.stop (tr : TaskRunner) (st : RunnerState) :
    RunnerState × List (String × Ctx) × Option GoError :=
  let r := stopLoop tr tr.runnerHooks []
  (st, r.1, r.2)

/-- The `updateHooks` loop: best effort; a failing hook is logged (name
and cause appended to `errs`) and the loop continues. -/
def updateLoop (tr : TaskRunner) :
    List TaskHook → List (String × Ctx × TaskUpdateRequest) →
    List (String × GoError) →
    List (String × Ctx × TaskUpdateRequest) × List (String × GoError)
  | [], calls, errs => (calls, errs)
  | hook :: rest, calls, errs =>
    match hook.update with
    | none => updateLoop tr rest calls errs
    | some upd =>
      let name := hook.name
      -- Build the request
      let req : TaskUpdateRequest := { VaultToken := tr.vaultToken }
      let calls1 := calls ++ [(name, tr.runnerCtx, req)]
      match upd tr.runnerCtx req with
      | Except.error err => updateLoop tr rest calls1 (errs ++ [(name, err)])
      | Except.ok _ => updateLoop tr rest calls1 errs

/-- Go `(*TaskRunner).updateHooks`: returns nothing to its caller; the
invocations and the logged errors are the only observable effects.  The
source reads neither `tr.localState` nor `tr.envBuilder` in this phase, so
the runner state is passed through unchanged. -/
def TaskRunner.updateHooks (tr : TaskRunner) (st : RunnerState) :
    RunnerState × List (String × Ctx × TaskUpdateRequest) × List (String × GoError) :=
  let r := updateLoop tr tr.runnerHooks [] []
  (st, r.1, r.2)

/-- The `kill` loop: best effort, and every invocation uses
`context.Background()` instead of `tr.ctx`. -/
def killLoop (tr : TaskRunner) :
    List TaskHook → List (String × Ctx) → List (String × GoError) →
    List (String × Ctx) × List (String × GoError)
  | [], calls, errs => (calls, errs)
  | hook :: rest, calls, errs =>
    match hook.kill with
    | none => killLoop tr rest calls errs
    | some killFn =>
      let name := hook.name
      let calls1 := calls ++ [(name, Ctx.background)]
      match killFn Ctx.background () with
      | Except.error err => killLoop tr rest calls1 (errs ++ [(name, err)])
      | Except.ok _ => killLoop tr rest calls1 errs

/-- Go `(*TaskRunner).kill`: returns nothing to its caller.  The source reads
neither `tr.localState` nor `tr.envBuilder` in this phase, so the runner
state is passed through unchanged. -/
def TaskRunner.kill (tr : TaskRunner) (st : RunnerState) :
    RunnerState × List (String × Ctx) × List (String × GoError) :=
  let r := killLoop tr tr.runnerHooks [] []
  (st, r.1, r.2)

/-- The phase capabilities of one hook implementation, supplied by the
external collaborators the registry wires together. -/
structure HookCaps where
  prestart : Option (Ctx → TaskPrestartRequest → Except GoError TaskPrestartResponse) := none
  poststart : Option (Ctx → TaskPoststartRequest → Except GoError TaskPoststartResponse) := none
  stop : Option (Ctx → TaskStopRequest → Except GoError TaskStopResponse) := none
  update : Option (Ctx → TaskUpdateRequest → Except GoError Unit) := none
  kill : Option (Ctx → TaskKillRequest → Except GoError TaskKillResponse) := none

/-- Wrap an implementation capabilities under a hook name. -/
def mkHook (name : String) (impl : HookCaps) : TaskHook :=
  { name := name, prestart := impl.prestart, poststart := impl.poststart,
    stop := impl.stop, update := impl.update, kill := impl.kill }

/-- Modelled from the spec: `newValidateHook`, the validation hook; its
behavior is an external collaborator, its name is fixed. -/
def newValidateHook (impl : HookCaps) : TaskHook := mkHook "validate" impl

/-- Modelled from the spec: `newTaskDirHook`, the directory-construction
hook. -/
def newTaskDirHook (impl : HookCaps) : TaskHook := mkHook "task_dir" impl

/-- Modelled from the spec: `newArtifactHook`, the artifact-fetch hook. -/
def newArtifactHook (impl : HookCaps) : TaskHook := mkHook "artifacts" impl

/-- Modelled from the spec: `newShutdownDelayHook`, the shutdown-delay
hook; the source passes it `task.ShutdownDelay`. -/
def newShutdownDelayHook (_delay : Nat) (impl : HookCaps) : TaskHook :=
  mkHook "shutdown_delay" impl

/-- Modelled from the spec: `newVaultHook`, the secret-derivation hook the
registry adds when the task declares a Vault stanza. -/
def newVaultHook (_stanza : Unit) (impl : HookCaps) : TaskHook :=
  mkHook "vault" impl

/-- Modelled from the spec: `newTemplateHook`, the template-rendering hook
the registry adds when the task has templates; the source passes it
`task.Templates`. -/
def newTemplateHook (_templates : List Unit) (impl : HookCaps) : TaskHook :=
  mkHook "template" impl

/-- The hook implementations the registry receives from its collaborators
(the construction arguments of the six hook constructors). -/
structure HookCollaborators where
  validateImpl : HookCaps
  taskDirImpl : HookCaps
  artifactImpl : HookCaps
  shutdownDelayImpl : HookCaps
  vaultImpl : HookCaps
  templateImpl : HookCaps

/-- Go `(*TaskRunner).initHooks` (source lines 14-52): the four static hooks
in fixed order, then the Vault hook iff `task.Vault != nil`, then the
template hook iff `len(task.Templates) != 0`. -/
def initHooks (c : HookCollaborators) (task : Task) : List TaskHook :=
  let hooks := [newValidateHook c.validateImpl,
                newTaskDirHook c.taskDirImpl,
                newArtifactHook c.artifactImpl,
                newShutdownDelayHook task.ShutdownDelay c.shutdownDelayImpl]
  let hooks :=
    match task.Vault with
    | some stanza => hooks ++ [newVaultHook stanza c.vaultImpl]
    | none => hooks
  if task.Templates.length != 0 then
    hooks ++ [newTemplateHook task.Templates c.templateImpl]
  else hooks

/-- The request a pre-start hook is invoked with: the task, the task
directory, the environment snapshot taken when the request was constructed
and the fresh vault token (the loop fills the token in after the skip
check). -/
def prestartReqOf (tr : TaskRunner) (st : RunnerState) : TaskPrestartRequest :=
  { Task := tr.task, TaskDir := tr.taskDir, TaskEnv := envBuild st.env,
    VaultToken := tr.vaultToken }

/-! ### Association-list lemmas -/

theorem lookupAssoc_insertAssoc_ne {β : Type} (m : List (String × β))
    (n k : String) (v : β) (h : k ≠ n) :
    lookupAssoc (insertAssoc m n v) k = lookupAssoc m k := by
  induction m with
  | nil => simp [insertAssoc, lookupAssoc, Ne.symm h]
  | cons p rest ih =>
    obtain ⟨a, w⟩ := p
    by_cases han : a = n
    · subst han
      simp [insertAssoc, lookupAssoc, Ne.symm h]
    · by_cases hak : a = k <;> simp [insertAssoc, lookupAssoc, han, hak, ih, h]

theorem lookupAssoc_insertAssoc_self {β : Type} (m : List (String × β))
    (n : String) (v : β) :
    lookupAssoc (insertAssoc m n v) n = some v := by
  induction m with
  | nil => simp [insertAssoc, lookupAssoc]
  | cons p rest ih =>
    obtain ⟨a, w⟩ := p
    by_cases han : a = n <;> simp [insertAssoc, lookupAssoc, han, ih]

theorem lookupAssoc_setGenericEnv_none (entries : List (String × String))
    (k : String) :
    ∀ env, lookupAssoc entries k = none →
      lookupAssoc (setGenericEnv env entries) k = lookupAssoc env k := by
  induction entries with
  | nil => intro env _; simp [setGenericEnv]
  | cons p rest ih =>
    intro env h
    obtain ⟨a, v⟩ := p
    have ha : ¬(a = k) := by
      intro hg
      simp [lookupAssoc, hg] at h
    have hr : lookupAssoc rest k = none := by
      simpa [lookupAssoc, ha] using h
    calc lookupAssoc (setGenericEnv env ((a, v) :: rest)) k
        = lookupAssoc (setGenericEnv (insertAssoc env a v) rest) k := by
          simp [setGenericEnv]
      _ = lookupAssoc (insertAssoc env a v) k := ih (insertAssoc env a v) hr
      _ = lookupAssoc env k :=
          lookupAssoc_insertAssoc_ne env a k v (fun hg => ha hg.symm)

/-! ### Update and kill loop characterizations -/

theorem updateLoop_eq (tr : TaskRunner) (hooks : List TaskHook) :
    ∀ (calls : List (String × Ctx × TaskUpdateRequest))
      (errs : List (String × GoError)),
      updateLoop tr hooks calls errs =
        (calls ++ (hooks.filter (fun h => h.update.isSome)).map
            (fun h => (h.name, tr.runnerCtx,
              ({ VaultToken := tr.vaultToken } : TaskUpdateRequest))),
         errs ++ hooks.filterMap (fun h =>
            match h.update with
            | none => none
            | some upd =>
              match upd tr.runnerCtx { VaultToken := tr.vaultToken } with
              | Except.error e => some (h.name, e)
              | Except.ok _ => none)) := by
  induction hooks with
  | nil => intro calls errs; simp [updateLoop]
  | cons hook rest ih =>
    intro calls errs
    cases hu : hook.update with
    | none => simp [updateLoop, hu, ih, List.filter_cons, List.filterMap_cons]
    | some upd =>
      cases hr : upd tr.runnerCtx { VaultToken := tr.vaultToken } with
      | error e =>
        simp [updateLoop, hu, hr, ih, List.filter_cons, List.filterMap_cons]
      | ok u =>
        simp [updateLoop, hu, hr, ih, List.filter_cons, List.filterMap_cons]

theorem killLoop_eq (tr : TaskRunner) (hooks : List TaskHook) :
    ∀ (calls : List (String × Ctx)) (errs : List (String × GoError)),
      killLoop tr hooks calls errs =
        (calls ++ (hooks.filter (fun h => h.kill.isSome)).map
            (fun h => (h.name, Ctx.background)),
         errs ++ hooks.filterMap (fun h =>
            match h.kill with
            | none => none
            | some killFn =>
              match killFn Ctx.background () with
              | Except.error e => some (h.name, e)
              | Except.ok _ => none)) := by
  induction hooks with
  | nil => intro calls errs; simp [killLoop]
  | cons hook rest ih =>
    intro calls errs
    cases hu : hook.kill with
    | none => simp [killLoop, hu, ih, List.filter_cons, List.filterMap_cons]
    | some killFn =>
      cases hr : killFn Ctx.background () with
      | error e =>
        simp [killLoop, hu, hr, ih, List.filter_cons, List.filterMap_cons]
      | ok u =>
        simp [killLoop, hu, hr, ih, List.filter_cons, List.filterMap_cons]

/-! ### Claim theorems -/

/-- C5: for every task specification the registry builds the ordered hook
list as exactly the four static hooks (validation, directory construction,
artifact fetch, shutdown delay) in that fixed order, followed by the
secret-derivation (Vault) hook iff the task declares a secret-management
stanza, followed by the template-rendering hook iff the task template
list is non-empty; no hook appears twice (the hook names are pairwise
distinct). -/
theorem initHooks_registry (c : HookCollaborators) (task : Task) :
    initHooks c task =
      [newValidateHook c.validateImpl, newTaskDirHook c.taskDirImpl,
       newArtifactHook c.artifactImpl,
       newShutdownDelayHook task.ShutdownDelay c.shutdownDelayImpl] ++
      (match task.Vault with
       | some stanza => [newVaultHook stanza c.vaultImpl]
       | none => []) ++
      (if task.Templates ≠ [] then
        [newTemplateHook task.Templates c.templateImpl]
       else []) ∧
    ((initHooks c task).map TaskHook.name).Nodup := by
  obtain ⟨v, tmpl, sd⟩ := task
  cases v <;> cases tmpl <;>
    simp [initHooks, newValidateHook, newTaskDirHook, newArtifactHook,
      newShutdownDelayHook, newVaultHook, newTemplateHook, mkHook]

/-- C9: if the owning allocation is terminal when prestart is called,
prestart returns success without invoking any hook, without persisting,
and without modifying the Local State Map or the Environment
Accumulator. -/
theorem prestart_terminal_skip (tr : TaskRunner) (st : RunnerState)
    (h : tr.terminal = true) :
    tr.prestart st = (st, PrestartLog.empty, none) := by
  simp [TaskRunner.prestart, h]

/-- C6: the update runner invokes every update-capable hook in list order
regardless of earlier failures (each with a request carrying the freshly
fetched vault token), logs each error with the failing hook name and
cause, and returns nothing to its caller (its result carries no error
value and the runner state is untouched). -/
theorem updateHooks_best_effort (tr : TaskRunner) (st : RunnerState) :
    (tr.updateHooks st).2.1 =
      (tr.runnerHooks.filter (fun h => h.update.isSome)).map
        (fun h => (h.name, tr.runnerCtx,
          ({ VaultToken := tr.vaultToken } : TaskUpdateRequest))) ∧
    (tr.updateHooks st).2.2 =
      tr.runnerHooks.filterMap (fun h =>
        match h.update with
        | none => none
        | some upd =>
          match upd tr.runnerCtx { VaultToken := tr.vaultToken } with
          | Except.error e => some (h.name, e)
          | Except.ok _ => none) ∧
    (tr.updateHooks st).1 = st := by
  refine ⟨?_, ?_, rfl⟩ <;>
    simp [TaskRunner.updateHooks, updateLoop_eq tr tr.runnerHooks [] []]

/-- C8: the kill runner invokes every kill-capable hook with the
independent background context (never the task runner own context), so
its behavior is unchanged when the runner primary context is already
canceled; hook errors are logged with the hook name and never abort the
loop or propagate (the result carries no error value and the runner state
is untouched). -/
theorem kill_background_best_effort (tr : TaskRunner) (st : RunnerState) :
    (tr.kill st).2.1 =
      (tr.runnerHooks.filter (fun h => h.kill.isSome)).map
        (fun h => (h.name, Ctx.background)) ∧
    (tr.kill st).2.2 =
      tr.runnerHooks.filterMap (fun h =>
        match h.kill with
        | none => none
        | some killFn =>
          match killFn Ctx.background () with
          | Except.error e => some (h.name, e)
          | Except.ok _ => none) ∧
    TaskRunner.kill { tr with ctxCanceled := true } st = tr.kill st ∧
    (tr.kill st).1 = st := by
  refine ⟨?_, ?_, ?_, rfl⟩ <;>
    simp [TaskRunner.kill, killLoop_eq]

/-- C7: the post-start and stop runners iterate the hook list restricted
to their capability with an empty-bodied request and are fail-fast: a hook
error aborts the loop, so no later hook is invoked, and is returned as a
plain, non-recoverable error naming the failing hook; neither runner
touches the Local State Map or the Environment Accumulator. -/
theorem poststart_stop_fail_fast (tr : TaskRunner) (st : RunnerState)
    (hook : TaskHook) (rest : List TaskHook) (calls : List (String × Ctx)) :
    (∀ post err, hook.poststart = some post →
       post tr.runnerCtx () = Except.error err →
       poststartLoop tr (hook :: rest) calls =
         (calls ++ [(hook.name, tr.runnerCtx)],
          some (GoError.plain (poststartFailMsg hook.name err))) ∧
       (GoError.plain (poststartFailMsg hook.name err)).IsRecoverable = false) ∧
    (∀ stopFn err, hook.stop = some stopFn →
       stopFn tr.runnerCtx () = Except.error err →
       stopLoop tr (hook :: rest) calls =
         (calls ++ [(hook.name, tr.runnerCtx)],
          some (GoError.plain (stopFailMsg hook.name err))) ∧
       (GoError.plain (stopFailMsg hook.name err)).IsRecoverable = false) ∧
    (tr.poststart st).1 = st ∧ (tr.stop st).1 = st := by
  refine ⟨?_, ?_, rfl, rfl⟩
  · intro post err hpost herr
    exact ⟨by simp [poststartLoop, hpost, herr], rfl⟩
  · intro stopFn err hstop herr
    exact ⟨by simp [stopLoop, hstop, herr], rfl⟩

/-- A hook whose post-start and stop implementations both fail, for the
fail-fast witness. -/
def w7Fail : TaskHook :=
  { name := "services",
    poststart := some (fun _ _ => Except.error (GoError.plain "register failed")),
    stop := some (fun _ _ => Except.error (GoError.plain "deregister failed")) }

/-- A later hook that would succeed, never reached in the witness. -/
def w7Later : TaskHook :=
  { name := "later",
    poststart := some (fun _ _ => Except.ok ()),
    stop := some (fun _ _ => Except.ok ()) }

/-- Task runner for the fail-fast witness. -/
def w7TR : TaskRunner :=
  { task := { Vault := none, Templates := [], ShutdownDelay := 0 },
    taskDir := "/t", vaultToken := "", terminal := false,
    ctxCanceled := false, persistErr := none,
    runnerHooks := [w7Fail, w7Later] }

/-- Runner state for the fail-fast witness. -/
def w7St : RunnerState := { hooks := [], env := [] }

/-- Witness for C7 at a concrete failing hook: the loop stops at the
first failing hook with the plain error naming it, and the state passes
through unchanged. -/
theorem poststart_stop_fail_fast_witness :
    (poststartLoop w7TR (w7Fail :: [w7Later]) [] =
       ([(w7Fail.name, w7TR.runnerCtx)],
        some (GoError.plain
          (poststartFailMsg w7Fail.name (GoError.plain "register failed"))))) ∧
    (stopLoop w7TR (w7Fail :: [w7Later]) [] =
       ([(w7Fail.name, w7TR.runnerCtx)],
        some (GoError.plain
          (stopFailMsg w7Fail.name (GoError.plain "deregister failed"))))) ∧
    (w7TR.poststart w7St).1 = w7St :=
  ⟨((poststart_stop_fail_fast w7TR w7St w7Fail [w7Later] []).1
      (fun _ _ => Except.error (GoError.plain "register failed"))
      (GoError.plain "register failed") rfl rfl).1,
   ((poststart_stop_fail_fast w7TR w7St w7Fail [w7Later] []).2.1
      (fun _ _ => Except.error (GoError.plain "deregister failed"))
      (GoError.plain "deregister failed") rfl rfl).1,
   (poststart_stop_fail_fast w7TR w7St w7Fail [w7Later] []).2.2.1⟩

/-- Task runner for the terminal-allocation witness: terminal, with one
prestart-capable hook that would record state if it ran. -/
def w9TR : TaskRunner :=
  { task := { Vault := none, Templates := [], ShutdownDelay := 0 },
    taskDir := "/alloc/task", vaultToken := "tok", terminal := true,
    ctxCanceled := false, persistErr := none,
    runnerHooks := [mkHook "artifacts"
      { prestart := some (fun _ _ =>
          Except.ok { Env := [("A", "1")], HookData := some [("d", "1")],
                      Done := true }) }] }

/-- Runner state for the terminal-allocation witness. -/
def w9St : RunnerState := { hooks := [], env := [] }

/-- Witness for C9: a terminal allocation makes prestart a no-op success
even though a hook is registered. -/
theorem prestart_terminal_skip_witness :
    w9TR.terminal = true ∧ w9TR.prestart w9St = (w9St, PrestartLog.empty, none) :=
  ⟨rfl, prestart_terminal_skip w9TR w9St rfl⟩

/-! ### Prestart step characterizations -/

theorem prestartStep_no_capability (tr : TaskRunner) (hook : TaskHook)
    (st : RunnerState) (log : PrestartLog) (h : hook.prestart = none) :
    prestartStep tr hook st log = StepRes.next st log := by
  simp [prestartStep, h]

theorem prestartStep_done (tr : TaskRunner) (hook : TaskHook)
    (st : RunnerState) (log : PrestartLog) (pre)
    (hpre : hook.prestart = some pre)
    (hdone : prestartDoneOf (lookupAssoc st.hooks hook.name) = true) :
    prestartStep tr hook st log = StepRes.next st log := by
  simp [prestartStep, hpre, hdone]

theorem prestartStep_error (tr : TaskRunner) (hook : TaskHook)
    (st : RunnerState) (log : PrestartLog) (pre) (err : GoError)
    (hpre : hook.prestart = some pre)
    (hnotdone : prestartDoneOf (lookupAssoc st.hooks hook.name) = false)
    (herr : pre tr.runnerCtx (prestartReqOf tr st) = Except.error err) :
    prestartStep tr hook st log =
      StepRes.halt st
        { log with invoked := log.invoked ++
            [{ name := hook.name, ctx := tr.runnerCtx,
               req := prestartReqOf tr st }] }
        (WrapRecoverable (prestartFailMsg hook.name err) err) := by
  simp only [prestartStep, hpre, hnotdone, Bool.false_eq_true, if_false]
  have : ({ Task := tr.task, TaskDir := tr.taskDir, TaskEnv := envBuild st.env,
            VaultToken := "" } : TaskPrestartRequest)
        = { prestartReqOf tr st with VaultToken := "" } := rfl
  simp [prestartReqOf] at herr ⊢
  simp [herr]

theorem HookStateEqual_refl (hs : HookState) :
    HookStateEqual (some hs) (some hs) = true := by
  simp [HookStateEqual]

theorem HookStateEqual_some_none (hs : HookState) :
    HookStateEqual (some hs) none = false := rfl

/-- The new state a successful response stores for a hook whose entry was
absent: built from `HookData` and `Done` when `HookData` is non-nil,
otherwise the freshly allocated empty state. -/
def freshHookState (resp : TaskPrestartResponse) : HookState :=
  if resp.HookData.isSome then
    { Data := resp.HookData, PrestartDone := resp.Done }
  else emptyHookState

/-- Characterization of a prestart step that invokes its hook successfully
when the Local State Map already holds a (not yet done) entry for the
hook: the entry is updated through the shared pointer, and since
`origHookState` aliases it, the changed-state check compares the updated
state with itself, so no persistence happens. -/
theorem prestartStep_ok_existing (tr : TaskRunner) (hook : TaskHook)
    (st : RunnerState) (log : PrestartLog) (pre) (resp : TaskPrestartResponse)
    (hs0 : HookState)
    (hpre : hook.prestart = some pre)
    (horig : lookupAssoc st.hooks hook.name = some hs0)
    (hnd : hs0.PrestartDone = false)
    (hok : pre tr.runnerCtx (prestartReqOf tr st) = Except.ok resp) :
    prestartStep tr hook st log =
      StepRes.next
        { hooks := insertAssoc st.hooks hook.name
            (if resp.HookData.isSome then
              { Data := resp.HookData, PrestartDone := resp.Done }
             else hs0),
          env := if resp.Env.isEmpty then st.env
                 else setGenericEnv st.env resp.Env }
        { log with invoked := log.invoked ++
            [{ name := hook.name, ctx := tr.runnerCtx,
               req := prestartReqOf tr st }] } := by
  have hok' : pre tr.runnerCtx
      { Task := tr.task, TaskDir := tr.taskDir, TaskEnv := envBuild st.env,
        VaultToken := tr.vaultToken } = Except.ok resp := hok
  cases hE : resp.Env.isEmpty <;>
    cases hD : resp.HookData.isSome <;>
      simp [prestartStep, hpre, horig, prestartDoneOf, hnd, hok',
        HookStateEqual_refl, prestartReqOf, hE, hD]

/-- Characterization of a prestart step that invokes its hook successfully
when the Local State Map held no entry for the hook: a fresh entry is
installed, `origHookState` is nil, so the changed-state check fails and
the map is persisted; a persistence failure aborts before the environment
merge. -/
theorem prestartStep_ok_absent (tr : TaskRunner) (hook : TaskHook)
    (st : RunnerState) (log : PrestartLog) (pre) (resp : TaskPrestartResponse)
    (hpre : hook.prestart = some pre)
    (horig : lookupAssoc st.hooks hook.name = none)
    (hok : pre tr.runnerCtx (prestartReqOf tr st) = Except.ok resp) :
    prestartStep tr hook st log =
      match tr.persistErr with
      | some perr =>
        StepRes.halt
          { st with hooks := insertAssoc st.hooks hook.name (freshHookState resp) }
          { invoked := log.invoked ++
              [{ name := hook.name, ctx := tr.runnerCtx,
                 req := prestartReqOf tr st }],
            persists := log.persists ++
              [insertAssoc st.hooks hook.name (freshHookState resp)] }
          perr
      | none =>
        StepRes.next
          { hooks := insertAssoc st.hooks hook.name (freshHookState resp),
            env := if resp.Env.isEmpty then st.env
                   else setGenericEnv st.env resp.Env }
          { invoked := log.invoked ++
              [{ name := hook.name, ctx := tr.runnerCtx,
                 req := prestartReqOf tr st }],
            persists := log.persists ++
              [insertAssoc st.hooks hook.name (freshHookState resp)] } := by
  have hok' : pre tr.runnerCtx
      { Task := tr.task, TaskDir := tr.taskDir, TaskEnv := envBuild st.env,
        VaultToken := tr.vaultToken } = Except.ok resp := hok
  cases hP : tr.persistErr <;>
    cases hE : resp.Env.isEmpty <;>
      cases hD : resp.HookData.isSome <;>
        simp [prestartStep, hpre, horig, prestartDoneOf, hok',
          HookStateEqual, freshHookState, prestartReqOf, hE, hD, hP]

/-- Every invocation a prestart step appends carries the stepping hook
name and the environment snapshot taken at that step, and the step touches
no Local State Map entry other than the stepping hook own (continue
case). -/
theorem prestartStep_next_props (tr : TaskRunner) (hook : TaskHook)
    (st : RunnerState) (log : PrestartLog) (st1 : RunnerState)
    (log1 : PrestartLog)
    (h : prestartStep tr hook st log = StepRes.next st1 log1) :
    (∀ call ∈ log1.invoked, call ∈ log.invoked ∨
       (call.name = hook.name ∧ call.req.TaskEnv = envBuild st.env)) ∧
    (∀ k, k ≠ hook.name → lookupAssoc st1.hooks k = lookupAssoc st.hooks k) := by
  cases hpre : hook.prestart with
  | none =>
    rw [prestartStep_no_capability tr hook st log hpre] at h
    cases h
    exact ⟨fun call hc => Or.inl hc, fun k _ => rfl⟩
  | some pre =>
    cases hdone : prestartDoneOf (lookupAssoc st.hooks hook.name) with
    | true =>
      rw [prestartStep_done tr hook st log pre hpre hdone] at h
      cases h
      exact ⟨fun call hc => Or.inl hc, fun k _ => rfl⟩
    | false =>
      cases hres : pre tr.runnerCtx (prestartReqOf tr st) with
      | error err =>
        rw [prestartStep_error tr hook st log pre err hpre hdone hres] at h
        simp at h
      | ok resp =>
        cases horig : lookupAssoc st.hooks hook.name with
        | some hs0 =>
          have hnd : hs0.PrestartDone = false := by
            rw [horig] at hdone
            simpa [prestartDoneOf] using hdone
          rw [prestartStep_ok_existing tr hook st log pre resp hs0 hpre horig
            hnd hres] at h
          cases h
          refine ⟨?_, ?_⟩
          · intro call hc
            rcases List.mem_append.mp hc with hin | hnew
            · exact Or.inl hin
            · rcases List.mem_singleton.mp hnew with rfl
              exact Or.inr ⟨rfl, rfl⟩
          · intro k hk
            exact lookupAssoc_insertAssoc_ne st.hooks hook.name k _ hk
        | none =>
          rw [prestartStep_ok_absent tr hook st log pre resp hpre horig hres] at h
          cases hperr : tr.persistErr with
          | some perr => rw [hperr] at h; simp at h
          | none =>
            rw [hperr] at h
            cases h
            refine ⟨?_, ?_⟩
            · intro call hc
              rcases List.mem_append.mp hc with hin | hnew
              · exact Or.inl hin
              · rcases List.mem_singleton.mp hnew with rfl
                exact Or.inr ⟨rfl, rfl⟩
            · intro k hk
              exact lookupAssoc_insertAssoc_ne st.hooks hook.name k _ hk

/-- Same invocation and state-locality facts for the abort case. -/
theorem prestartStep_halt_props (tr : TaskRunner) (hook : TaskHook)
    (st : RunnerState) (log : PrestartLog) (st1 : RunnerState)
    (log1 : PrestartLog) (err : GoError)
    (h : prestartStep tr hook st log = StepRes.halt st1 log1 err) :
    (∀ call ∈ log1.invoked, call ∈ log.invoked ∨
       (call.name = hook.name ∧ call.req.TaskEnv = envBuild st.env)) ∧
    (∀ k, k ≠ hook.name → lookupAssoc st1.hooks k = lookupAssoc st.hooks k) := by
  cases hpre : hook.prestart with
  | none =>
    rw [prestartStep_no_capability tr hook st log hpre] at h
    simp at h
  | some pre =>
    cases hdone : prestartDoneOf (lookupAssoc st.hooks hook.name) with
    | true =>
      rw [prestartStep_done tr hook st log pre hpre hdone] at h
      simp at h
    | false =>
      cases hres : pre tr.runnerCtx (prestartReqOf tr st) with
      | error e0 =>
        rw [prestartStep_error tr hook st log pre e0 hpre hdone hres] at h
        cases h
        refine ⟨?_, fun k _ => rfl⟩
        intro call hc
        rcases List.mem_append.mp hc with hin | hnew
        · exact Or.inl hin
        · rcases List.mem_singleton.mp hnew with rfl
          exact Or.inr ⟨rfl, rfl⟩
      | ok resp =>
        cases horig : lookupAssoc st.hooks hook.name with
        | some hs0 =>
          have hnd : hs0.PrestartDone = false := by
            rw [horig] at hdone
            simpa [prestartDoneOf] using hdone
          rw [prestartStep_ok_existing tr hook st log pre resp hs0 hpre horig
            hnd hres] at h
          simp at h
        | none =>
          rw [prestartStep_ok_absent tr hook st log pre resp hpre horig hres] at h
          cases hperr : tr.persistErr with
          | none => rw [hperr] at h; simp at h
          | some perr =>
            rw [hperr] at h
            cases h
            refine ⟨?_, ?_⟩
            · intro call hc
              rcases List.mem_append.mp hc with hin | hnew
              · exact Or.inl hin
              · rcases List.mem_singleton.mp hnew with rfl
                exact Or.inr ⟨rfl, rfl⟩
            · intro k hk
              exact lookupAssoc_insertAssoc_ne st.hooks hook.name k _ hk

/-- C3: if a pre-start hook invocation returns an error, the prestart pass
stops at that hook — no later hook in the list is invoked — and returns a
recoverable error wrapping the original error with a message naming the
failing hook; if the hook succeeds but persisting the changed Local State
Map fails, the pass likewise aborts at that hook and the persistence
error is returned. -/
theorem prestart_error_handling (tr : TaskRunner) (st : RunnerState)
    (hook : TaskHook) (pre) (rest : List TaskHook) (log : PrestartLog)
    (hpre : hook.prestart = some pre)
    (hnotdone : prestartDoneOf (lookupAssoc st.hooks hook.name) = false) :
    (∀ err, pre tr.runnerCtx (prestartReqOf tr st) = Except.error err →
       prestartLoop tr (hook :: rest) st log =
         (st,
          { log with invoked := log.invoked ++
              [{ name := hook.name, ctx := tr.runnerCtx,
                 req := prestartReqOf tr st }] },
          some (WrapRecoverable (prestartFailMsg hook.name err) err)) ∧
       (WrapRecoverable (prestartFailMsg hook.name err) err).IsRecoverable = true) ∧
    (∀ resp perr, pre tr.runnerCtx (prestartReqOf tr st) = Except.ok resp →
       lookupAssoc st.hooks hook.name = none →
       tr.persistErr = some perr →
       prestartLoop tr (hook :: rest) st log =
         ({ st with hooks := insertAssoc st.hooks hook.name (freshHookState resp) },
          { invoked := log.invoked ++
              [{ name := hook.name, ctx := tr.runnerCtx,
                 req := prestartReqOf tr st }],
            persists := log.persists ++
              [insertAssoc st.hooks hook.name (freshHookState resp)] },
          some perr)) := by
  constructor
  · intro err herr
    refine ⟨?_, rfl⟩
    simp only [prestartLoop,
      prestartStep_error tr hook st log pre err hpre hnotdone herr]
  · intro resp perr hok horig hperr
    simp only [prestartLoop,
      prestartStep_ok_absent tr hook st log pre resp hpre horig hok, hperr]

/-- A failing pre-start hook for the C3 witness. -/
def w3Fail : TaskHook :=
  { name := "artifacts",
    prestart := some (fun _ _ => Except.error (GoError.plain "download failed")) }

/-- A later hook for the C3 witness, never reached. -/
def w3Rest : TaskHook :=
  { name := "later",
    prestart := some (fun _ _ =>
      Except.ok { Env := [], HookData := none, Done := false }) }

/-- Task runner for the hook-error half of the C3 witness. -/
def w3TR : TaskRunner :=
  { task := { Vault := none, Templates := [], ShutdownDelay := 0 },
    taskDir := "/t", vaultToken := "v", terminal := false,
    ctxCanceled := false, persistErr := none,
    runnerHooks := [w3Fail, w3Rest] }

/-- Runner state for the C3 witness. -/
def w3St : RunnerState := { hooks := [], env := [] }

/-- The response of the succeeding hook in the persistence-failure half of
the C3 witness. -/
def w3pResp : TaskPrestartResponse :=
  { Env := [("T", "1")], HookData := some [("token", "x")], Done := true }

/-- A succeeding pre-start hook whose state change triggers persistence. -/
def w3pHook : TaskHook :=
  { name := "vault", prestart := some (fun _ _ => Except.ok w3pResp) }

/-- Task runner whose persistence collaborator fails, for C3. -/
def w3pTR : TaskRunner :=
  { task := { Vault := none, Templates := [], ShutdownDelay := 0 },
    taskDir := "/t", vaultToken := "v", terminal := false,
    ctxCanceled := false, persistErr := some (GoError.plain "disk full"),
    runnerHooks := [w3pHook, w3Rest] }

/-- Witness for C3: a concrete failing hook aborts the pass with the
recoverable wrapped error, and a concrete persistence failure after a
successful hook aborts the pass with the persistence error. -/
theorem prestart_error_handling_witness :
    (prestartLoop w3TR (w3Fail :: [w3Rest]) w3St PrestartLog.empty =
       (w3St,
        { PrestartLog.empty with invoked := PrestartLog.empty.invoked ++
            [{ name := w3Fail.name, ctx := w3TR.runnerCtx,
               req := prestartReqOf w3TR w3St }] },
        some (WrapRecoverable
          (prestartFailMsg w3Fail.name (GoError.plain "download failed"))
          (GoError.plain "download failed")))) ∧
    (WrapRecoverable
      (prestartFailMsg w3Fail.name (GoError.plain "download failed"))
      (GoError.plain "download failed")).IsRecoverable = true ∧
    (prestartLoop w3pTR (w3pHook :: [w3Rest]) w3St PrestartLog.empty =
       ({ w3St with hooks := insertAssoc w3St.hooks w3pHook.name (freshHookState w3pResp) },
        { invoked := PrestartLog.empty.invoked ++
            [{ name := w3pHook.name, ctx := w3pTR.runnerCtx,
               req := prestartReqOf w3pTR w3St }],
          persists := PrestartLog.empty.persists ++
            [insertAssoc w3St.hooks w3pHook.name (freshHookState w3pResp)] },
        some (GoError.plain "disk full"))) := by
  refine ⟨?_, ?_, ?_⟩
  · exact ((prestart_error_handling w3TR w3St w3Fail _ [w3Rest]
      PrestartLog.empty rfl rfl).1 (GoError.plain "download failed") rfl).1
  · exact ((prestart_error_handling w3TR w3St w3Fail _ [w3Rest]
      PrestartLog.empty rfl rfl).1 (GoError.plain "download failed") rfl).2
  · exact (prestart_error_handling w3pTR w3St w3pHook _ [w3Rest]
      PrestartLog.empty rfl rfl).2 w3pResp (GoError.plain "disk full") rfl rfl rfl

/-- Once a hook name Local State Map entry is marked done, a prestart
loop never invokes a hook of that name and never changes that entry. -/
theorem prestartLoop_done_preserved (tr : TaskRunner) (nm : String)
    (hs : HookState) (hdone : hs.PrestartDone = true) :
    ∀ (hooks : List TaskHook) (st : RunnerState) (log : PrestartLog),
      lookupAssoc st.hooks nm = some hs →
      (∀ call ∈ (prestartLoop tr hooks st log).2.1.invoked,
         call ∈ log.invoked ∨ call.name ≠ nm) ∧
      lookupAssoc (prestartLoop tr hooks st log).1.hooks nm = some hs := by
  intro hooks
  induction hooks with
  | nil =>
    intro st log hlook
    exact ⟨fun call hc => Or.inl hc, hlook⟩
  | cons hook rest ih =>
    intro st log hlook
    by_cases hname : hook.name = nm
    · have hstep : prestartStep tr hook st log = StepRes.next st log := by
        cases hpre : hook.prestart with
        | none => exact prestartStep_no_capability tr hook st log hpre
        | some pre =>
          apply prestartStep_done tr hook st log pre hpre
          rw [hname, hlook]
          simpa [prestartDoneOf] using hdone
      have hloop : prestartLoop tr (hook :: rest) st log =
          prestartLoop tr rest st log := by
        simp only [prestartLoop, hstep]
      rw [hloop]
      exact ih st log hlook
    · cases hstep : prestartStep tr hook st log with
      | next st1 log1 =>
        obtain ⟨hcalls, hlocal⟩ :=
          prestartStep_next_props tr hook st log st1 log1 hstep
        have hlook1 : lookupAssoc st1.hooks nm = some hs := by
          rw [hlocal nm (fun hg => hname hg.symm)]
          exact hlook
        have hloop : prestartLoop tr (hook :: rest) st log =
            prestartLoop tr rest st1 log1 := by
          simp only [prestartLoop, hstep]
        rw [hloop]
        obtain ⟨ihc, ihl⟩ := ih st1 log1 hlook1
        refine ⟨?_, ihl⟩
        intro call hc
        rcases ihc call hc with hin | hne
        · rcases hcalls call hin with hin0 | ⟨hn, _⟩
          · exact Or.inl hin0
          · exact Or.inr (fun hg => hname (hn ▸ hg))
        · exact Or.inr hne
      | halt st1 log1 err =>
        obtain ⟨hcalls, hlocal⟩ :=
          prestartStep_halt_props tr hook st log st1 log1 err hstep
        have hres : prestartLoop tr (hook :: rest) st log = (st1, log1, some err) := by
          simp only [prestartLoop, hstep]
        rw [hres]
        refine ⟨?_, ?_⟩
        · intro call hc
          rcases hcalls call hc with hin | ⟨hn, _⟩
          · exact Or.inl hin
          · exact Or.inr (fun hg => hname (hn ▸ hg))
        · rw [hlocal nm (fun hg => hname hg.symm)]
          exact hlook

/-- C1: when the Local State Map already holds a done entry for a hook
name, a prestart pass never invokes any hook of that name, leaves the
stored entry unchanged, and the loop simply continues to the next hook in
list order (running the rest of the list from an unchanged state). -/
theorem prestart_skips_done_hook (tr : TaskRunner) (st : RunnerState)
    (nm : String) (hs : HookState) (hd : TaskHook) (rest : List TaskHook)
    (log : PrestartLog)
    (hlook : lookupAssoc st.hooks nm = some hs)
    (hdone : hs.PrestartDone = true)
    (hname : hd.name = nm) :
    (∀ call ∈ (tr.prestart st).2.1.invoked, call.name ≠ nm) ∧
    lookupAssoc (tr.prestart st).1.hooks nm = some hs ∧
    prestartLoop tr (hd :: rest) st log = prestartLoop tr rest st log := by
  have hskip : prestartLoop tr (hd :: rest) st log =
      prestartLoop tr rest st log := by
    have hstep : prestartStep tr hd st log = StepRes.next st log := by
      cases hpre : hd.prestart with
      | none => exact prestartStep_no_capability tr hd st log hpre
      | some pre =>
        apply prestartStep_done tr hd st log pre hpre
        rw [hname, hlook]
        simpa [prestartDoneOf] using hdone
    simp only [prestartLoop, hstep]
  cases hterm : tr.terminal
  case true =>
    refine ⟨?_, ?_, hskip⟩
    · intro call hc
      simp [TaskRunner.prestart, hterm, PrestartLog.empty] at hc
    · simpa [TaskRunner.prestart, hterm] using hlook
  case false =>
    have hunf : tr.prestart st =
        prestartLoop tr tr.runnerHooks st PrestartLog.empty := by
      simp [TaskRunner.prestart, hterm]
    obtain ⟨hcalls, hlook2⟩ := prestartLoop_done_preserved tr nm hs hdone
      tr.runnerHooks st PrestartLog.empty hlook
    refine ⟨?_, ?_, hskip⟩
    · intro call hc
      rw [hunf] at hc
      rcases hcalls call hc with hin | hne
      · simp [PrestartLog.empty] at hin
      · exact hne
    · rw [hunf]
      exact hlook2

/-- The already-done Vault hook for the C1 witness; were it invoked it
would fail, so the witness run succeeding shows it is skipped. -/
def w1Done : TaskHook :=
  { name := "vault",
    prestart := some (fun _ _ => Except.error (GoError.plain "must not run")) }

/-- The later hook for the C1 witness. -/
def w1Next : TaskHook :=
  { name := "template",
    prestart := some (fun _ _ =>
      Except.ok { Env := [], HookData := none, Done := false }) }

/-- Task runner for the C1 witness. -/
def w1TR : TaskRunner :=
  { task := { Vault := some (), Templates := [()], ShutdownDelay := 0 },
    taskDir := "/t", vaultToken := "v", terminal := false,
    ctxCanceled := false, persistErr := none,
    runnerHooks := [w1Done, w1Next] }

/-- The stored done state of the Vault hook in the C1 witness. -/
def w1HS : HookState := { Data := some [("t", "x")], PrestartDone := true }

/-- Runner state for the C1 witness: the Vault hook is already done. -/
def w1St : RunnerState := { hooks := [("vault", w1HS)], env := [] }

/-- Witness for C1 at a concrete resumed state: the done Vault hook is
never invoked, its stored state survives the pass, and the loop continues
with the next hook. -/
theorem prestart_skips_done_hook_witness :
    lookupAssoc w1St.hooks "vault" = some w1HS ∧
    w1HS.PrestartDone = true ∧
    (∀ call ∈ (w1TR.prestart w1St).2.1.invoked, call.name ≠ "vault") ∧
    lookupAssoc (w1TR.prestart w1St).1.hooks "vault" = some w1HS ∧
    prestartLoop w1TR (w1Done :: [w1Next]) w1St PrestartLog.empty =
      prestartLoop w1TR [w1Next] w1St PrestartLog.empty := by
  have h := prestart_skips_done_hook w1TR w1St "vault" w1HS w1Done [w1Next]
    PrestartLog.empty rfl rfl rfl
  exact ⟨rfl, rfl, h.1, h.2.1, h.2.2⟩

/-- A hook whose successful pre-start responses never bind the key `K`. -/
def respNoKey (hook : TaskHook) (K : String) : Prop :=
  ∀ pre c r resp, hook.prestart = some pre → pre c r = Except.ok resp →
    lookupAssoc resp.Env K = none

/-- A prestart step by a hook that never binds `K` leaves the
accumulator binding of `K` unchanged (continue case). -/
theorem prestartStep_next_env (tr : TaskRunner) (hook : TaskHook)
    (st : RunnerState) (log : PrestartLog) (st1 : RunnerState)
    (log1 : PrestartLog) (K : String)
    (hnk : respNoKey hook K)
    (h : prestartStep tr hook st log = StepRes.next st1 log1) :
    lookupAssoc st1.env K = lookupAssoc st.env K := by
  cases hpre : hook.prestart with
  | none =>
    rw [prestartStep_no_capability tr hook st log hpre] at h
    cases h
    rfl
  | some pre =>
    cases hdone : prestartDoneOf (lookupAssoc st.hooks hook.name) with
    | true =>
      rw [prestartStep_done tr hook st log pre hpre hdone] at h
      cases h
      rfl
    | false =>
      cases hres : pre tr.runnerCtx (prestartReqOf tr st) with
      | error err =>
        rw [prestartStep_error tr hook st log pre err hpre hdone hres] at h
        simp at h
      | ok resp =>
        have hE : lookupAssoc resp.Env K = none :=
          hnk pre tr.runnerCtx (prestartReqOf tr st) resp hpre hres
        cases horig : lookupAssoc st.hooks hook.name with
        | some hs0 =>
          have hnd : hs0.PrestartDone = false := by
            rw [horig] at hdone
            simpa [prestartDoneOf] using hdone
          rw [prestartStep_ok_existing tr hook st log pre resp hs0 hpre horig
            hnd hres] at h
          cases h
          by_cases hEe : resp.Env.isEmpty
          · simp [hEe]
          · simp [hEe, lookupAssoc_setGenericEnv_none resp.Env K st.env hE]
        | none =>
          rw [prestartStep_ok_absent tr hook st log pre resp hpre horig hres] at h
          cases hperr : tr.persistErr with
          | some perr =>
            rw [hperr] at h
            simp at h
          | none =>
            rw [hperr] at h
            cases h
            by_cases hEe : resp.Env.isEmpty
            · simp [hEe]
            · simp [hEe, lookupAssoc_setGenericEnv_none resp.Env K st.env hE]

/-- Once the Environment Accumulator binds `K` to `V` and no remaining
hook responses rebind `K`, every hook invocation the rest of the pass
performs observes `K = V` in its request environment snapshot. -/
theorem prestartLoop_env_invariant (tr : TaskRunner) (K V : String) :
    ∀ (hooks : List TaskHook) (st : RunnerState) (log : PrestartLog),
      lookupAssoc st.env K = some V →
      (∀ B ∈ hooks, respNoKey B K) →
      ∀ call ∈ (prestartLoop tr hooks st log).2.1.invoked,
        call ∈ log.invoked ∨ lookupAssoc call.req.TaskEnv K = some V := by
  intro hooks
  induction hooks with
  | nil =>
    intro st log _ _ call hc
    exact Or.inl hc
  | cons hook rest ih =>
    intro st log henv hnk call hc
    cases hstep : prestartStep tr hook st log with
    | next st1 log1 =>
      rw [show prestartLoop tr (hook :: rest) st log =
          prestartLoop tr rest st1 log1 from by
        simp only [prestartLoop, hstep]] at hc
      have henv1 : lookupAssoc st1.env K = some V := by
        rw [prestartStep_next_env tr hook st log st1 log1 K
          (hnk hook (List.mem_cons_self hook rest)) hstep]
        exact henv
      rcases ih st1 log1 henv1
        (fun B hB => hnk B (List.mem_cons_of_mem hook hB)) call hc with hin | hv
      · rcases (prestartStep_next_props tr hook st log st1 log1 hstep).1
          call hin with hin0 | ⟨_, henvreq⟩
        · exact Or.inl hin0
        · refine Or.inr ?_
          rw [henvreq]
          exact henv
      · exact Or.inr hv
    | halt st1 log1 err =>
      rw [show prestartLoop tr (hook :: rest) st log = (st1, log1, some err)
        from by simp only [prestartLoop, hstep]] at hc
      rcases (prestartStep_halt_props tr hook st log st1 log1 err hstep).1
        call hc with hin0 | ⟨_, henvreq⟩
      · exact Or.inl hin0
      · refine Or.inr ?_
        rw [henvreq]
        exact henv

/-- C4: if an earlier pre-start hook succeeds and merging its response
environment entries leaves the accumulator binding `K` to `V`, then — as
long as no later hook responses rebind `K` — every later hook invocation
in the same pass observes `K = V` in the environment snapshot of its
request, which is built from the accumulator when the request is
constructed. -/
theorem prestart_env_visibility (tr : TaskRunner) (st : RunnerState)
    (log : PrestartLog) (A : TaskHook) (rest : List TaskHook)
    (preA) (respA : TaskPrestartResponse) (K V : String)
    (hpre : A.prestart = some preA)
    (hnotdone : prestartDoneOf (lookupAssoc st.hooks A.name) = false)
    (hrun : preA tr.runnerCtx (prestartReqOf tr st) = Except.ok respA)
    (hKV : lookupAssoc (setGenericEnv st.env respA.Env) K = some V)
    (hrest : ∀ B ∈ rest, respNoKey B K) :
    ∀ call ∈ (prestartLoop tr (A :: rest) st log).2.1.invoked,
      call ∈ log.invoked ∨ call.name = A.name ∨
      lookupAssoc call.req.TaskEnv K = some V := by
  have henvA : lookupAssoc (if respA.Env.isEmpty then st.env
      else setGenericEnv st.env respA.Env) K = some V := by
    cases hE : respA.Env with
    | nil => simpa [hE, setGenericEnv] using hKV
    | cons p l => simpa [hE] using hKV
  intro call hc
  cases horig : lookupAssoc st.hooks A.name with
  | some hs0 =>
    have hnd : hs0.PrestartDone = false := by
      rw [horig] at hnotdone
      simpa [prestartDoneOf] using hnotdone
    rw [show prestartLoop tr (A :: rest) st log =
        prestartLoop tr rest
          { hooks := insertAssoc st.hooks A.name
              (if respA.HookData.isSome then
                { Data := respA.HookData, PrestartDone := respA.Done }
               else hs0),
            env := if respA.Env.isEmpty then st.env
                   else setGenericEnv st.env respA.Env }
          { log with invoked := log.invoked ++
              [{ name := A.name, ctx := tr.runnerCtx,
                 req := prestartReqOf tr st }] }
      from by
        simp only [prestartLoop, prestartStep_ok_existing tr A st log preA
          respA hs0 hpre horig hnd hrun]] at hc
    rcases prestartLoop_env_invariant tr K V rest _ _ henvA hrest call hc
      with hin | hv
    · rcases List.mem_append.mp hin with hin0 | hnew
      · exact Or.inl hin0
      · rcases List.mem_singleton.mp hnew with rfl
        exact Or.inr (Or.inl rfl)
    · exact Or.inr (Or.inr hv)
  | none =>
    cases hperr : tr.persistErr with
    | some perr =>
      rw [show prestartLoop tr (A :: rest) st log =
          ({ st with hooks := insertAssoc st.hooks A.name (freshHookState respA) },
           { invoked := log.invoked ++
               [{ name := A.name, ctx := tr.runnerCtx,
                  req := prestartReqOf tr st }],
             persists := log.persists ++
               [insertAssoc st.hooks A.name (freshHookState respA)] },
           some perr)
        from by
          simp only [prestartLoop, prestartStep_ok_absent tr A st log preA
            respA hpre horig hrun, hperr]] at hc
      rcases List.mem_append.mp hc with hin0 | hnew
      · exact Or.inl hin0
      · rcases List.mem_singleton.mp hnew with rfl
        exact Or.inr (Or.inl rfl)
    | none =>
      rw [show prestartLoop tr (A :: rest) st log =
          prestartLoop tr rest
            { hooks := insertAssoc st.hooks A.name (freshHookState respA),
              env := if respA.Env.isEmpty then st.env
                     else setGenericEnv st.env respA.Env }
            { invoked := log.invoked ++
                [{ name := A.name, ctx := tr.runnerCtx,
                   req := prestartReqOf tr st }],
              persists := log.persists ++
                [insertAssoc st.hooks A.name (freshHookState respA)] }
        from by
          simp only [prestartLoop, prestartStep_ok_absent tr A st log preA
            respA hpre horig hrun, hperr]] at hc
      rcases prestartLoop_env_invariant tr K V rest _ _ henvA hrest call hc
        with hin | hv
      · rcases List.mem_append.mp hin with hin0 | hnew
        · exact Or.inl hin0
        · rcases List.mem_singleton.mp hnew with rfl
          exact Or.inr (Or.inl rfl)
      · exact Or.inr (Or.inr hv)

/-- The earlier (vault) hook response for the C4 witness: it emits one
environment entry. -/
def w4Aresp : TaskPrestartResponse :=
  { Env := [("VAULT_TOKEN", "s.abc")], HookData := none, Done := false }

/-- The earlier hook for the C4 witness. -/
def w4A : TaskHook :=
  { name := "vault", prestart := some (fun _ _ => Except.ok w4Aresp) }

/-- The later (template) hook response for the C4 witness: no
environment entries. -/
def w4Bresp : TaskPrestartResponse :=
  { Env := [], HookData := none, Done := false }

/-- The later hook for the C4 witness. -/
def w4B : TaskHook :=
  { name := "template", prestart := some (fun _ _ => Except.ok w4Bresp) }

/-- Task runner for the C4 witness. -/
def w4TR : TaskRunner :=
  { task := { Vault := some (), Templates := [()], ShutdownDelay := 0 },
    taskDir := "/t", vaultToken := "v", terminal := false,
    ctxCanceled := false, persistErr := none,
    runnerHooks := [w4A, w4B] }

/-- Runner state for the C4 witness. -/
def w4St : RunnerState := { hooks := [], env := [] }

/-- The later hook of the C4 witness never rebinds the witnessed key. -/
theorem w4B_respNoKey : respNoKey w4B "VAULT_TOKEN" := by
  intro pre c r resp hp hr
  have hp' := Option.some.inj hp
  rw [← hp'] at hr
  cases hr
  rfl

/-- Witness for C4: in the concrete two-hook pass every invocation after
the vault hook sees its entry, and the invocation list shows the template
hook really is invoked (so the property is not vacuous). -/
theorem prestart_env_visibility_witness :
    (∀ call ∈ (prestartLoop w4TR (w4A :: [w4B]) w4St
        PrestartLog.empty).2.1.invoked,
       call ∈ PrestartLog.empty.invoked ∨ call.name = w4A.name ∨
       lookupAssoc call.req.TaskEnv "VAULT_TOKEN" = some "s.abc") ∧
    ((prestartLoop w4TR (w4A :: [w4B]) w4St
        PrestartLog.empty).2.1.invoked.map PrestartCall.name =
      ["vault", "template"]) :=
  ⟨prestart_env_visibility w4TR w4St PrestartLog.empty w4A [w4B] _ w4Aresp
      "VAULT_TOKEN" "s.abc" rfl rfl rfl rfl
      (fun B hB => by
        rcases List.mem_singleton.mp hB with rfl
        exact w4B_respNoKey),
   by decide⟩

/-- A full single-hook prestart pass whose hook answers successfully with
nil `HookData`: the pass succeeds, invokes the hook, and stores the prior
entry unchanged (an empty entry when none existed). -/
theorem prestart_single_nil_hookdata (tr : TaskRunner) (st : RunnerState)
    (hook : TaskHook) (pre) (resp : TaskPrestartResponse)
    (hhooks : tr.runnerHooks = [hook]) (hterm : tr.terminal = false)
    (hpersist : tr.persistErr = none)
    (hpre : hook.prestart = some pre)
    (hnotdone : prestartDoneOf (lookupAssoc st.hooks hook.name) = false)
    (hrun : ∀ c r, pre c r = Except.ok resp)
    (hnil : resp.HookData = none) :
    (tr.prestart st).2.2 = none ∧
    ((tr.prestart st).2.1.invoked.map PrestartCall.name = [hook.name]) ∧
    lookupAssoc (tr.prestart st).1.hooks hook.name =
      some ((lookupAssoc st.hooks hook.name).getD emptyHookState) := by
  have hunf : tr.prestart st = prestartLoop tr [hook] st PrestartLog.empty := by
    simp [TaskRunner.prestart, hterm, hhooks]
  cases horig : lookupAssoc st.hooks hook.name with
  | some hs =>
    have hnd : hs.PrestartDone = false := by
      rw [horig] at hnotdone
      simpa [prestartDoneOf] using hnotdone
    have hstep := prestartStep_ok_existing tr hook st PrestartLog.empty pre
      resp hs hpre horig hnd (hrun tr.runnerCtx (prestartReqOf tr st))
    rw [hnil] at hstep
    simp only [Option.isSome_none, Bool.false_eq_true, if_false,
      PrestartLog.empty] at hstep
    refine ⟨?_, ?_, ?_⟩ <;>
      rw [hunf] <;>
        simp [prestartLoop, PrestartLog.empty, hstep, horig,
          lookupAssoc_insertAssoc_self]
  | none =>
    have hstep := prestartStep_ok_absent tr hook st PrestartLog.empty pre
      resp hpre horig (hrun tr.runnerCtx (prestartReqOf tr st))
    rw [hpersist] at hstep
    simp only [freshHookState, hnil, Option.isSome_none, Bool.false_eq_true,
      if_false, PrestartLog.empty] at hstep
    refine ⟨?_, ?_, ?_⟩ <;>
      rw [hunf] <;>
        simp [prestartLoop, PrestartLog.empty, hstep, horig,
          lookupAssoc_insertAssoc_self]

/-- C10: when a pre-start hook succeeds with nil `HookData`, prestart
still ensures an entry for the hook name exists in the Local State Map
(an empty `HookState` when none existed) but leaves `Data` and the `Done`
flag untouched — in particular a response carrying `Done` with nil
`HookData` never records `Done`, so a subsequent prestart pass invokes the
hook again. -/
theorem prestart_nil_hookdata_reinvoked (tr : TaskRunner) (st : RunnerState)
    (hook : TaskHook) (pre) (resp : TaskPrestartResponse)
    (hhooks : tr.runnerHooks = [hook]) (hterm : tr.terminal = false)
    (hpersist : tr.persistErr = none)
    (hpre : hook.prestart = some pre)
    (hnotdone : prestartDoneOf (lookupAssoc st.hooks hook.name) = false)
    (hrun : ∀ c r, pre c r = Except.ok resp)
    (hnil : resp.HookData = none) :
    lookupAssoc (tr.prestart st).1.hooks hook.name =
      some ((lookupAssoc st.hooks hook.name).getD emptyHookState) ∧
    (tr.prestart st).2.2 = none ∧
    ((tr.prestart st).2.1.invoked.map PrestartCall.name = [hook.name]) ∧
    ((tr.prestart (tr.prestart st).1).2.1.invoked.map PrestartCall.name =
      [hook.name]) := by
  obtain ⟨hok1, hinv1, hlook1⟩ := prestart_single_nil_hookdata tr st hook pre
    resp hhooks hterm hpersist hpre hnotdone hrun hnil
  have hnotdone2 :
      prestartDoneOf (lookupAssoc (tr.prestart st).1.hooks hook.name) = false := by
    rw [hlook1]
    cases horig : lookupAssoc st.hooks hook.name with
    | some hs =>
      rw [horig] at hnotdone
      simpa [prestartDoneOf, Option.getD] using hnotdone
    | none => rfl
  obtain ⟨_, hinv2, _⟩ := prestart_single_nil_hookdata tr (tr.prestart st).1
    hook pre resp hhooks hterm hpersist hpre hnotdone2 hrun hnil
  exact ⟨hlook1, hok1, hinv1, hinv2⟩

/-- The response of the C10 witness hook: `Done` is reported `true` but
`HookData` is nil. -/
def w10Resp : TaskPrestartResponse :=
  { Env := [], HookData := none, Done := true }

/-- The C10 witness hook. -/
def w10Hook : TaskHook :=
  { name := "task_dir", prestart := some (fun _ _ => Except.ok w10Resp) }

/-- Task runner for the C10 witness. -/
def w10TR : TaskRunner :=
  { task := { Vault := none, Templates := [], ShutdownDelay := 0 },
    taskDir := "/t", vaultToken := "", terminal := false,
    ctxCanceled := false, persistErr := none,
    runnerHooks := [w10Hook] }

/-- Runner state for the C10 witness: no prior state. -/
def w10St : RunnerState := { hooks := [], env := [] }

/-- Witness for C10: the hook reports `Done` with nil `HookData`; an empty
entry is created, `Done` is not recorded, and the hook is invoked again on
the next pass. -/
theorem prestart_nil_hookdata_reinvoked_witness :
    lookupAssoc (w10TR.prestart w10St).1.hooks "task_dir" =
      some ((lookupAssoc w10St.hooks "task_dir").getD emptyHookState) ∧
    (w10TR.prestart w10St).2.2 = none ∧
    ((w10TR.prestart w10St).2.1.invoked.map PrestartCall.name = ["task_dir"]) ∧
    ((w10TR.prestart (w10TR.prestart w10St).1).2.1.invoked.map
       PrestartCall.name = ["task_dir"]) :=
  prestart_nil_hookdata_reinvoked w10TR w10St w10Hook
    (fun _ _ => Except.ok w10Resp) w10Resp rfl rfl rfl rfl rfl
    (fun _ _ => rfl) rfl

/-- The response of the hook on the C2 failing input: changed data and a
set done flag. -/
def c2Resp : TaskPrestartResponse :=
  { Env := [], HookData := some [("k", "v2")], Done := true }

/-- The hook of the C2 failing input. -/
def c2Hook : TaskHook :=
  { name := "artifacts", prestart := some (fun _ _ => Except.ok c2Resp) }

/-- Task runner of the C2 failing input; its persistence collaborator
would succeed if it were ever called. -/
def c2TR : TaskRunner :=
  { task := { Vault := none, Templates := [], ShutdownDelay := 0 },
    taskDir := "/t", vaultToken := "", terminal := false,
    ctxCanceled := false, persistErr := none,
    runnerHooks := [c2Hook] }

/-- The pre-existing, not-yet-done state of the hook on the C2 failing
input. -/
def c2Orig : HookState := { Data := some [("k", "v1")], PrestartDone := false }

/-- Runner state of the C2 failing input. -/
def c2St : RunnerState := { hooks := [("artifacts", c2Orig)], env := [] }

/-- C2 (code bug, evaluated at the failing input): the stored state of the
hook changes from Data k=v1, Done=false to Data k=v2, Done=true, yet the
pass issues no persistence call at all: origHookState is a pointer that
aliases the map entry updated in place, so the changed-state check
compares the new state with itself.  The claim — and the comment in the
source, "Store and persist local state if the hook state has changed" —
require exactly one persistence call here. -/
theorem prestart_missed_persist_on_changed_state :
    (c2TR.prestart c2St).2.1.persists = [] ∧
    lookupAssoc (c2TR.prestart c2St).1.hooks "artifacts" =
      some { Data := some [("k", "v2")], PrestartDone := true } ∧
    HookStateEqual (lookupAssoc (c2TR.prestart c2St).1.hooks "artifacts")
      (some c2Orig) = false ∧
    (c2TR.prestart c2St).2.2 = none := by
  decide

end Nomad
